import Mathlib

/-
  Verification development for the business-card-api backend.

  The definitions below are a shallow embedding of the JavaScript source:
  strings are `List Char`, JavaScript string methods (`trim`, `toLowerCase`,
  `replace(/.../g, ...)`, `split`, `startsWith`) become executable functions
  on `List Char`, `JSON.parse` becomes a fuel-based recursive-descent parser,
  and the campaign send loop becomes a recursive function threading its
  accumulated state.  Fallible JavaScript operations (a method call that can
  throw `TypeError`, `JSON.parse`) return `Option`.
-/

namespace BizCard

/-- Convert a Lean string literal to the `List Char` representation used
throughout the embedding. -/
def cs (s : String) : List Char := s.toList

/-- JavaScript whitespace class (`\s`), restricted to the ASCII range that
occurs in practice. -/
def isWsChar (c : Char) : Bool :=
  c = ' ' || c = '\t' || c = '\n' || c = '\r' || c = '\x0b' || c = '\x0c'

/-- `String.prototype.trim`: strip whitespace from both ends. -/
def trimChars (s : List Char) : List Char :=
  ((s.dropWhile isWsChar).reverse.dropWhile isWsChar).reverse

/-- `String.prototype.toLowerCase` (ASCII). -/
def lowerChars (s : List Char) : List Char :=
  s.map Char.toLower

/-- `String.prototype.replace` with a global literal pattern: replace every
occurrence of `pat` by `rep`, scanning left to right. -/
def replaceAll (pat rep : List Char) (s : List Char) : List Char :=
  match pat, s with
  | _, [] => []
  | [], s => s
  | p :: ps, c :: rest =>
    if p = c ∧ List.IsPrefix ps rest then
      rep ++ replaceAll (p :: ps) rep (rest.drop ps.length)
    else
      c :: replaceAll (p :: ps) rep rest
termination_by s.length
decreasing_by
  · simp only [List.length_cons, List.length_drop]; omega
  · simp only [List.length_cons]; omega

/-- Whether `pat` occurs as a contiguous substring of `s`. -/
def containsSeq (pat : List Char) : List Char → Bool
  | [] => pat.isEmpty
  | c :: rest => pat.isPrefixOf (c :: rest) || containsSeq pat rest

/-! ## Template Personalizer (`replaceParameters` in the campaigns route) -/

/-- A row of the `business_cards` table, restricted to the columns the
campaign route reads.  Nullable text columns are represented by the empty
string, which the route's `|| ''` defaults make observationally equal. -/
structure DbCard where
  id : Nat
  userId : Nat
  name : List Char
  email : List Char
  phone : List Char
  company : List Char
  job_title : List Char
  website : List Char
  deriving Repr, DecidableEq

/-- A `\x7b\x7btoken\x7d\x7d` placeholder pattern. -/
def tok (t : String) : List Char := cs ("\x7b\x7b" ++ t ++ "\x7d\x7d")

/-- The ten placeholder identifiers recognized by `replaceParameters`. -/
def recognizedTokens : List (List Char) :=
  [tok "name", tok "first_name", tok "last_name", tok "email", tok "company",
   tok "job_title", tok "phone", tok "website", tok "custom_note", tok "sender_name"]

/-- `card.name.split(' ')[0]`. -/
def jsFirstName (name : List Char) : List Char := name.takeWhile (· ≠ ' ')

/-- `card.name.split(' ').slice(1).join(' ')`: everything after the first
space, or empty when there is no space. -/
def jsLastName (name : List Char) : List Char := (name.dropWhile (· ≠ ' ')).drop 1

/-- The campaigns route's `replaceParameters(text, card, customNote, senderName)`:
`if (!text) return ''`, then ten global literal replacements in source order. -/
def replaceParameters (text : List Char) (card : DbCard)
    (customNote senderName : List Char) : List Char :=
  if text.isEmpty then [] else
  let r1 := replaceAll (tok "name") card.name text
  let r2 := replaceAll (tok "first_name") (jsFirstName card.name) r1
  let r3 := replaceAll (tok "last_name") (jsLastName card.name) r2
  let r4 := replaceAll (tok "email") card.email r3
  let r5 := replaceAll (tok "company") card.company r4
  let r6 := replaceAll (tok "job_title") card.job_title r5
  let r7 := replaceAll (tok "phone") card.phone r6
  let r8 := replaceAll (tok "website") card.website r7
  let r9 := replaceAll (tok "custom_note") customNote r8
  replaceAll (tok "sender_name") senderName r9

/-! ## Bulk Dispatch Orchestrator (the `POST /api/email/campaigns` send loop) -/

/-- Outcome of one `gmailService.sendEmail` call: either a returned result
object (`{success, messageId?, error?}`) or a thrown exception. -/
inductive SendOutcome where
  | res (success : Bool) (messageId : Option (List Char)) (error : Option (List Char))
  | thrown (msg : List Char)
  deriving Repr, DecidableEq

/-- One element of the route's `recipients` array. -/
structure Recipient where
  id : Nat
  email : List Char
  name : List Char
  personalizedSubject : List Char
  personalizedBody : List Char
  customNote : List Char
  deriving Repr, DecidableEq

/-- One element pushed onto `sendResults`. -/
structure ResultEntry where
  recipientId : Nat
  email : List Char
  success : Bool
  messageId : Option (List Char)
  error : Option (List Char)
  deriving Repr, DecidableEq

/-- One `INSERT INTO sent_emails` row (the columns the loop fills). -/
structure SentEmailRow where
  cardId : Nat
  recipientEmail : List Char
  recipientName : List Char
  subject : List Char
  status : List Char
  customNote : List Char
  errorMessage : Option (List Char)
  deriving Repr, DecidableEq

/-- The loop's accumulated state: `sendResults`, the `sent_emails` rows
written so far, the two counters, and (for the pacing claim) one boolean per
iteration recording whether the 1000 ms `setTimeout` sleep ran. -/
structure LoopState where
  results : List ResultEntry
  rows : List SentEmailRow
  sentCount : Nat
  failedCount : Nat
  sleeps : List Bool
  deriving Repr, DecidableEq

/-- The `for (const recipient of recipients)` send loop.  The `try` branch
counts the outcome, inserts a `sent_emails` row, pushes a `sendResults`
entry and sleeps; the `catch` branch counts a failure and inserts a failed
row with the exception message, but pushes no entry and does not sleep. -/
def sendLoop (send : Recipient → SendOutcome) : List Recipient → LoopState
  | [] => ⟨[], [], 0, 0, []⟩
  | r :: rest =>
    let st := sendLoop send rest
    match send r with
    | .res ok mid err =>
      { results := { recipientId := r.id, email := r.email, success := ok,
                     messageId := mid, error := err } :: st.results
        rows := { cardId := r.id, recipientEmail := r.email,
                  recipientName := r.name, subject := r.personalizedSubject,
                  status := if ok then cs "sent" else cs "failed",
                  customNote := r.customNote, errorMessage := err } :: st.rows
        sentCount := (if ok then 1 else 0) + st.sentCount
        failedCount := (if ok then 0 else 1) + st.failedCount
        sleeps := true :: st.sleeps }
    | .thrown m =>
      { results := st.results
        rows := { cardId := r.id, recipientEmail := r.email,
                  recipientName := r.name, subject := r.personalizedSubject,
                  status := cs "failed",
                  customNote := r.customNote, errorMessage := some m } :: st.rows
        sentCount := st.sentCount
        failedCount := 1 + st.failedCount
        sleeps := false :: st.sleeps }

/-- Whether the collaborator threw for this recipient. -/
def isThrownOutcome : SendOutcome → Bool
  | .thrown _ => true
  | .res _ _ _ => false

/-- Whether the collaborator returned `{success: true}` for this recipient. -/
def isSuccessOutcome : SendOutcome → Bool
  | .res true _ _ => true
  | _ => false

/-- Campaign status enum of the `email_campaigns` table. -/
inductive CampaignStatus where
  | draft | inProgress | completed | failed
  deriving Repr, DecidableEq

def isTerminalStatus : CampaignStatus → Bool
  | .completed => true
  | .failed => true
  | _ => false

/-- A snapshot of the campaign's `email_campaigns` row. -/
structure CampaignRow where
  totalRecipients : Nat
  sentCount : Nat
  failedCount : Nat
  status : CampaignStatus
  deriving Repr, DecidableEq

/-- `true` when no adjacent transition in the status history leaves a
terminal status for a different status. -/
def noTerminalRevert : List CampaignStatus → Bool
  | [] => true
  | [_] => true
  | a :: b :: rest =>
    (!isTerminalStatus a || decide (b = a)) && noTerminalRevert (b :: rest)

/-- Build one recipient from a card, personalizing subject and body with
`replaceParameters` and looking up the per-card custom note
(`customNotes?.[card.id] || ''`). -/
def mkRecipient (subject body senderName : List Char)
    (customNotes : Nat → List Char) (card : DbCard) : Recipient :=
  { id := card.id, email := card.email, name := card.name
    personalizedSubject :=
      replaceParameters subject card (customNotes card.id) senderName
    personalizedBody :=
      replaceParameters body card (customNotes card.id) senderName
    customNote := customNotes card.id }

/-- The successive states of the campaign's `email_campaigns` row: inserted
with `total_recipients = cards.length` and status `in_progress`, then updated
once with the final counters and status `completed`. -/
def campaignStates (cards : List DbCard) (subject body senderName : List Char)
    (customNotes : Nat → List Char) (send : Recipient → SendOutcome) :
    List CampaignRow :=
  let recipients := cards.map (mkRecipient subject body senderName customNotes)
  let st := sendLoop send recipients
  [⟨cards.length, 0, 0, .inProgress⟩,
   ⟨cards.length, st.sentCount, st.failedCount, .completed⟩]

/-- The `SELECT * FROM business_cards WHERE id IN (...) AND user_id = ?`
lookup: the requested ids filtered down to rows owned by the requester. -/
def lookupCards (db : List DbCard) (uid : Nat) (cardIds : List Nat) : List DbCard :=
  db.filter (fun c => cardIds.contains c.id && c.userId == uid)

/-- The JSON body returned by the campaigns route on success (the fields the
claims are about). -/
structure CampaignResponse where
  sentCount : Nat
  failedCount : Nat
  totalRecipients : Nat
  results : List ResultEntry
  deriving Repr, DecidableEq

/-- The campaigns route after request validation: look up the owned cards,
answer 404 (`none`) when none match, otherwise build recipients, run the
send loop, and return the response together with the `sent_emails` rows. -/
def campaignRoute (db : List DbCard) (uid : Nat) (cardIds : List Nat)
    (subject body senderName : List Char) (customNotes : Nat → List Char)
    (send : Recipient → SendOutcome) :
    Option (CampaignResponse × List SentEmailRow) :=
  let cards := lookupCards db uid cardIds
  if cards.isEmpty then none
  else
    let recipients := cards.map (mkRecipient subject body senderName customNotes)
    let st := sendLoop send recipients
    some ({ sentCount := st.sentCount, failedCount := st.failedCount,
            totalRecipients := cards.length, results := st.results }, st.rows)

/-! ## JSON values and a model of `JSON.parse`

`JSON.parse` is a host builtin; it is modelled here by a fuel-based
recursive-descent parser over the JSON grammar (objects, arrays, strings
with escapes, numbers, literals, with the four JSON whitespace characters).
Numeric literals are kept as their source text, which is all the claims
ever observe of them. -/

inductive JVal where
  | jnull
  | jbool (b : Bool)
  | jnum (raw : List Char)
  | jstr (s : List Char)
  | jarr (items : List JVal)
  | jobj (fields : List (List Char × JVal))

instance : Inhabited JVal := ⟨JVal.jnull⟩

/-- The four whitespace characters JSON allows between tokens. -/
def jsonWs (c : Char) : Bool := c = ' ' || c = '\t' || c = '\n' || c = '\r'

/-- Hexadecimal digit value. -/
def hexVal (c : Char) : Option Nat :=
  if '0' ≤ c ∧ c ≤ '9' then some (c.toNat - '0'.toNat)
  else if 'a' ≤ c ∧ c ≤ 'f' then some (c.toNat - 'a'.toNat + 10)
  else if 'A' ≤ c ∧ c ≤ 'F' then some (c.toNat - 'A'.toNat + 10)
  else none

/-- Single-character escape sequences. -/
def escChar (c : Char) : Option Char :=
  if c = '"' then some '"'
  else if c = '\\' then some '\\'
  else if c = '/' then some '/'
  else if c = 'b' then some '\x08'
  else if c = 'f' then some '\x0c'
  else if c = 'n' then some '\n'
  else if c = 'r' then some '\r'
  else if c = 't' then some '\t'
  else none

/-- Parse the body of a JSON string (the opening quote already consumed),
returning the decoded characters and the input after the closing quote. -/
def parseJStr : Nat → List Char → Option (List Char × List Char)
  | 0, _ => none
  | _, [] => none
  | fuel + 1, c :: rest =>
    if c = '"' then some ([], rest)
    else if c = '\\' then
      match rest with
      | [] => none
      | e :: rest2 =>
        if e = 'u' then
          match rest2 with
          | h1 :: h2 :: h3 :: h4 :: rest3 =>
            match hexVal h1, hexVal h2, hexVal h3, hexVal h4 with
            | some a, some b, some c2, some d =>
              (parseJStr fuel rest3).map
                (fun p => (Char.ofNat (((a * 16 + b) * 16 + c2) * 16 + d) :: p.1, p.2))
            | _, _, _, _ => none
          | _ => none
        else
          match escChar e with
          | some ch => (parseJStr fuel rest2).map (fun p => (ch :: p.1, p.2))
          | none => none
    else if c.toNat < 32 then none
    else (parseJStr fuel rest).map (fun p => (c :: p.1, p.2))

/-- Optional fraction part of a JSON number. -/
def parseJFrac (s : List Char) : Option (List Char × List Char) :=
  match s with
  | '.' :: r =>
    let ds := r.takeWhile Char.isDigit
    if ds.isEmpty then none else some ('.' :: ds, r.dropWhile Char.isDigit)
  | _ => some ([], s)

/-- Optional exponent part of a JSON number. -/
def parseJExp (s : List Char) : Option (List Char × List Char) :=
  match s with
  | e :: r =>
    if e = 'e' ∨ e = 'E' then
      let (sgn, r2) : List Char × List Char :=
        match r with
        | '+' :: r2 => (['+'], r2)
        | '-' :: r2 => (['-'], r2)
        | _ => ([], r)
      let ds := r2.takeWhile Char.isDigit
      if ds.isEmpty then none
      else some (e :: (sgn ++ ds), r2.dropWhile Char.isDigit)
    else some ([], e :: r)
  | [] => some ([], [])

/-- Parse a JSON numeric literal, keeping its source text. -/
def parseJNum (s : List Char) : Option (List Char × List Char) := do
  let (sgn, s1) : List Char × List Char :=
    match s with
    | '-' :: r => (['-'], r)
    | _ => ([], s)
  let (ip, s2) ← (match s1 with
    | '0' :: r => some ((['0'] : List Char), r)
    | c :: r =>
      if c.isDigit then
        some ((c :: r).takeWhile Char.isDigit, (c :: r).dropWhile Char.isDigit)
      else none
    | [] => none)
  let (fp, s3) ← parseJFrac s2
  let (ep, s4) ← parseJExp s3
  some (sgn ++ ip ++ fp ++ ep, s4)

mutual

/-- Parse one JSON value, skipping leading whitespace. -/
def parseJVal : Nat → List Char → Option (JVal × List Char)
  | 0, _ => none
  | fuel + 1, s0 =>
    let s := s0.dropWhile jsonWs
    match s with
    | '{' :: r =>
      match r.dropWhile jsonWs with
      | '}' :: r2 => some (.jobj [], r2)
      | _ => (parseJMembers fuel r).map (fun p => (.jobj p.1, p.2))
    | '[' :: r =>
      match r.dropWhile jsonWs with
      | ']' :: r2 => some (.jarr [], r2)
      | _ => (parseJItems fuel r).map (fun p => (.jarr p.1, p.2))
    | '"' :: r => (parseJStr (r.length + 1) r).map (fun p => (.jstr p.1, p.2))
    | _ =>
      if (cs "true").isPrefixOf s then some (.jbool true, s.drop 4)
      else if (cs "false").isPrefixOf s then some (.jbool false, s.drop 5)
      else if (cs "null").isPrefixOf s then some (.jnull, s.drop 4)
      else (parseJNum s).map (fun p => (.jnum p.1, p.2))

/-- Parse the members of a JSON object (after the opening brace). -/
def parseJMembers : Nat → List Char → Option (List (List Char × JVal) × List Char)
  | 0, _ => none
  | fuel + 1, s =>
    match s.dropWhile jsonWs with
    | '"' :: r => do
      let (key, r2) ← parseJStr (r.length + 1) r
      match r2.dropWhile jsonWs with
      | ':' :: r4 => do
        let (v, r5) ← parseJVal fuel r4
        match r5.dropWhile jsonWs with
        | ',' :: r7 => do
          let (fs, r8) ← parseJMembers fuel r7
          some ((key, v) :: fs, r8)
        | '}' :: r7 => some ([(key, v)], r7)
        | _ => none
      | _ => none
    | _ => none

/-- Parse the items of a JSON array (after the opening bracket). -/
def parseJItems : Nat → List Char → Option (List JVal × List Char)
  | 0, _ => none
  | fuel + 1, s => do
    let (v, r) ← parseJVal fuel s
    match r.dropWhile jsonWs with
    | ',' :: r2 => do
      let (vs, r3) ← parseJItems fuel r2
      some (v :: vs, r3)
    | ']' :: r2 => some ([v], r2)
    | _ => none

end

/-- `JSON.parse`: parse a complete JSON text; trailing non-whitespace makes
the whole parse fail. -/
def jsonParse (s : List Char) : Option JVal := do
  let (v, rest) ← parseJVal (2 * s.length + 8) s
  if (rest.dropWhile jsonWs).isEmpty then some v else none

/-- Property access `parsed.key`: a lookup on object values (last duplicate
key wins, as in `JSON.parse`), `undefined` (`none`) otherwise. -/
def jGetField (v : JVal) (key : List Char) : Option JVal :=
  match v with
  | .jobj fs => (fs.reverse.find? (fun p => p.1 = key)).map (·.2)
  | _ => none

/-! ## JavaScript value coercions -/

/-- Whether a JSON numeric literal denotes zero. -/
def numIsZero (raw : List Char) : Bool :=
  (raw.takeWhile (fun c => ¬(c = 'e' ∨ c = 'E'))).all
    (fun c => c = '0' ∨ c = '-' ∨ c = '.' ∨ c = '+')

/-- JavaScript truthiness test on a possibly-undefined parsed value:
`undefined`, `null`, `false`, `0`, and `''` are falsy. -/
def jsFalsy : Option JVal → Bool
  | none => true
  | some .jnull => true
  | some (.jbool b) => !b
  | some (.jnum raw) => numIsZero raw
  | some (.jstr s) => s.isEmpty
  | some (.jarr _) => false
  | some (.jobj _) => false

mutual

/-- `String(v)` on a parsed JSON value (numbers keep their literal text;
arrays join elements with commas, rendering `null` as empty). -/
def jsToString : JVal → List Char
  | .jnull => cs "null"
  | .jbool b => if b then cs "true" else cs "false"
  | .jnum raw => raw
  | .jstr s => s
  | .jarr xs => jsToStringItems xs
  | .jobj _ => cs "[object Object]"

/-- Comma-joined rendering of array elements (`Array.prototype.toString`). -/
def jsToStringItems : List JVal → List Char
  | [] => []
  | [.jnull] => []
  | [v] => jsToString v
  | .jnull :: v :: rest => ',' :: jsToStringItems (v :: rest)
  | u :: v :: rest => jsToString u ++ ',' :: jsToStringItems (v :: rest)

end

/-- Fuel-based worker for `collapseWs`. -/
def collapseWsAux : Nat → List Char → List Char
  | _, [] => []
  | 0, s => s
  | fuel + 1, c :: rest =>
    if isWsChar c then ' ' :: collapseWsAux fuel (rest.dropWhile isWsChar)
    else c :: collapseWsAux fuel rest

/-- Collapse each run of whitespace to a single space
(`.replace(/\s+/g, ' ')`). -/
def collapseWs (s : List Char) : List Char :=
  collapseWsAux s.length s

/-! ## Field Normalizer: the services' clean* helpers

JavaScript method calls like `.trim()` or `.toLowerCase()` throw a
`TypeError` on non-string values; cleaners performing such calls on the raw
parsed value therefore return `Option` (`none` models the throw).  `===`
comparisons against string literals are false for non-strings. -/

/-- The seven extracted card fields, each a (possibly empty) string. -/
structure CardFields where
  name : List Char
  email : List Char
  phone : List Char
  company : List Char
  job_title : List Char
  address : List Char
  website : List Char
  deriving Repr, DecidableEq

/-- The all-empty card template (`emptyCard()` / the inline fallback data
objects). -/
def emptyCard : CardFields := ⟨[], [], [], [], [], [], []⟩

/-- The test of `/^[^\s@]+@[^\s@]+\.[^\s@]+$/` used by both `cleanEmail`
implementations: no whitespace, a single `@` with nonempty local part, and a
domain containing a dot at neither its first nor its last position. -/
def emailRegexTest (s : List Char) : Bool :=
  let okc (c : Char) : Bool := !isWsChar c && !(c = '@')
  let loc := s.takeWhile (fun c => c ≠ '@')
  match s.dropWhile (fun c => c ≠ '@') with
  | '@' :: dom =>
    !loc.isEmpty && loc.all okc && !dom.isEmpty && dom.all okc &&
      ((dom.drop 1).dropLast).contains '.'
  | _ => false

/-- `website.replace(/^www\./, '')`. -/
def stripWwwPrefix (s : List Char) : List Char :=
  if (cs "www.").isPrefixOf s then s.drop 4 else s

/-- mistralService `cleanString`. -/
def mistralCleanString (v : Option JVal) : Option (List Char) :=
  if jsFalsy v then some [] else
  match v with
  | some (.jstr s) =>
    if s = cs "null" ∨ s = cs "undefined" ∨ s = cs "N/A" ∨ s = cs "n/a" then some []
    else some (trimChars s)
  | _ => none

/-- mistralService `cleanEmail`. -/
def mistralCleanEmail (v : Option JVal) : Option (List Char) :=
  if jsFalsy v then some [] else
  match v with
  | some (.jstr s) =>
    if s = cs "null" ∨ s = cs "undefined" ∨ s = cs "N/A" then some []
    else
      let e := lowerChars (trimChars s)
      some (if emailRegexTest e then e else [])
  | _ => none

/-- mistralService `cleanPhone`. -/
def mistralCleanPhone (v : Option JVal) : Option (List Char) :=
  if jsFalsy v then some [] else
  match v with
  | some (.jstr s) =>
    if s = cs "null" ∨ s = cs "undefined" ∨ s = cs "N/A" then some []
    else some (collapseWs (trimChars s))
  | _ => none

/-- mistralService `cleanWebsite`: sentinel check, trim + lower-case, then
prefix `https://` and strip a leading `www.` when non-empty and not starting
with `http`. -/
def mistralCleanWebsite (v : Option JVal) : Option (List Char) :=
  if jsFalsy v then some [] else
  match v with
  | some (.jstr s) =>
    if s = cs "null" ∨ s = cs "undefined" ∨ s = cs "N/A" then some []
    else
      let w := lowerChars (trimChars s)
      if !w.isEmpty && !(cs "http").isPrefixOf w then
        some (cs "https://" ++ stripWwwPrefix w)
      else some w
  | _ => none

/-- geminiService `cleanString` (total: uses `String(v)`). -/
def geminiCleanString (v : Option JVal) : List Char :=
  if jsFalsy v then [] else
  match v with
  | some (.jstr s) => if s = cs "null" then [] else trimChars s
  | some j => trimChars (jsToString j)
  | none => []

/-- geminiService `cleanEmail` (lower-case then trim, then the regex). -/
def geminiCleanEmail (v : Option JVal) : Option (List Char) :=
  if jsFalsy v then some [] else
  match v with
  | some (.jstr s) =>
    let e := trimChars (lowerChars s)
    some (if emailRegexTest e then e else [])
  | _ => none

/-- geminiService `cleanPhone` (collapse whitespace then trim). -/
def geminiCleanPhone (v : Option JVal) : Option (List Char) :=
  if jsFalsy v then some [] else
  match v with
  | some (.jstr s) => some (trimChars (collapseWs s))
  | _ => none

/-- geminiService `cleanWebsite`: no sentinel list, no trim, no lower-case;
only the `https://` prefixing with `www.` stripping. -/
def geminiCleanWebsite (v : Option JVal) : Option (List Char) :=
  if jsFalsy v then some [] else
  match v with
  | some (.jstr s) =>
    if (cs "http").isPrefixOf s then some s
    else some (cs "https://" ++ stripWwwPrefix s)
  | _ => none

/-- The openai services' `cleanField` / `f`: `''` for null/undefined,
otherwise `String(value).trim()` (total, never throws). -/
def cleanField (v : Option JVal) : List Char :=
  match v with
  | none => []
  | some .jnull => []
  | some j => trimChars (jsToString j)

/-! ## Extraction results and the provider services -/

/-- The uniform result shape `{success, data, fallback, rateLimited, error,
message}`; absent object properties are `none` / `false` defaults. -/
structure ExtractionResult where
  success : Bool
  data : Option CardFields := none
  fallback : Bool := false
  rateLimited : Bool := false
  error : Option (List Char) := none
  message : Option (List Char) := none
  deriving Repr, DecidableEq

/-- Drop one leading newline if present (the `\n?` of the fence regexes). -/
def dropLeadingNl : List Char → List Char
  | '\n' :: r => r
  | r => r

/-- Fuel-based worker for `removeAllOptNl` (every step consumes at least
one character, so `s.length` fuel always suffices). -/
def removeAllOptNlAux (pat : List Char) : Nat → List Char → List Char
  | _, [] => []
  | 0, s => s
  | fuel + 1, c :: rest =>
    match pat with
    | [] => c :: rest
    | p :: ps =>
      if p = c ∧ List.IsPrefix ps rest then
        removeAllOptNlAux pat fuel (dropLeadingNl (rest.drop ps.length))
      else c :: removeAllOptNlAux pat fuel rest

/-- `replace(/```json\n?/g, '')`-style global removal of a literal pattern
together with one optional following newline. -/
def removeAllOptNl (pat : List Char) (s : List Char) : List Char :=
  removeAllOptNlAux pat s.length s

/-- The `/\{[\s\S]*\}/` match: the span from the first `\x7b` through the
last `\x7d`, when the former precedes the latter. -/
def braceSpan (s : List Char) : Option (List Char) :=
  let t := s.dropWhile (fun c => c ≠ '{')
  let u := (t.reverse.dropWhile (fun c => c ≠ '}')).reverse
  if u.isEmpty then none else some u

/-! ### mistralService -/

/-- mistralService response processing for one HTTP-success attempt: trim,
strip code fences, trim, extract the brace span, `JSON.parse`, then clean
each field.  `none` models a thrown error (no JSON found, parse error, or a
cleaner's `TypeError`). -/
def mistralProcessText (t : List Char) : Option CardFields := do
  let c1 := trimChars t
  let c2 := removeAllOptNl (cs "```json") c1
  let c3 := removeAllOptNl (cs "```") c2
  let c4 := trimChars c3
  let span ← braceSpan c4
  let v ← jsonParse span
  let name ← mistralCleanString (jGetField v (cs "name"))
  let email ← mistralCleanEmail (jGetField v (cs "email"))
  let phone ← mistralCleanPhone (jGetField v (cs "phone"))
  let company ← mistralCleanString (jGetField v (cs "company"))
  let jobTitle ← mistralCleanString (jGetField v (cs "job_title"))
  let address ← mistralCleanString (jGetField v (cs "address"))
  let website ← mistralCleanWebsite (jGetField v (cs "website"))
  pure ⟨name, email, phone, company, jobTitle, address, website⟩

/-- What one mistral attempt observed from the provider. -/
inductive MistralAttempt where
  | content (text : Option (List Char))
  | http429
  | http401
  | netError
  deriving Repr, DecidableEq

/-- mistralService `fallbackExtraction`. -/
def mistralFallbackResult : ExtractionResult :=
  { success := true, data := some emptyCard, fallback := true,
    message := some (cs "AI extraction unavailable. Please fill in the card information manually.") }

/-- The retry-exhausted rate-limit result. -/
def mistralRateLimitedResult : ExtractionResult :=
  { success := false, rateLimited := true,
    error := some (cs "Rate limit exceeded. Please try again in a few minutes or upgrade your Mistral API plan."),
    data := some emptyCard }

/-- The HTTP-401 result. -/
def mistralAuthResult : ExtractionResult :=
  { success := false, error := some (cs "Invalid Mistral API key"),
    data := some emptyCard }

/-- One iteration of the mistral retry loop: `some r` returns `r` from the
function, `none` falls through to the next attempt (or, after the last
attempt, to `fallbackExtraction`). -/
def mistralAttemptStep (a : MistralAttempt) (isLast : Bool) : Option ExtractionResult :=
  match a with
  | .content t =>
    match t with
    | none => none
    | some txt =>
      match mistralProcessText txt with
      | some fields => some { success := true, data := some fields }
      | none => none
  | .http429 => if isLast then some mistralRateLimitedResult else none
  | .http401 => some mistralAuthResult
  | .netError => none

/-- The `for (let attempt = 1; attempt <= maxRetries; ...)` loop; falling
out of the loop ends in `fallbackExtraction`. -/
def mistralLoop : List MistralAttempt → ExtractionResult
  | [] => mistralFallbackResult
  | a :: rest =>
    match mistralAttemptStep a rest.isEmpty with
    | some r => r
    | none => mistralLoop rest

/-- mistralService `extractCardInfo`: unconfigured key short-circuits to
`fallbackExtraction`; otherwise up to `maxRetries = 3` attempts
(`attempts.length = 3` in deployment). -/
def mistralExtract (apiKeyConfigured : Bool) (attempts : List MistralAttempt) :
    ExtractionResult :=
  if apiKeyConfigured then mistralLoop attempts else mistralFallbackResult

/-! ### geminiService -/

/-- What a single-call service observed: an HTTP success carrying the
(possibly missing) response text, or a thrown API/network error. -/
inductive ApiOutcome where
  | ok (text : Option (List Char))
  | err (status : Option Nat) (msg : List Char)
  deriving Repr, DecidableEq

/-- Engine-generated message of a `SyntaxError`/`TypeError` thrown while
parsing or cleaning (its exact wording is host-defined and is never
inspected by the code). -/
def parseErrMsg : List Char := cs "Unexpected token in JSON"

/-- geminiService's catch-all error result. -/
def geminiErrorResult (msg : List Char) : ExtractionResult :=
  { success := false, error := some msg, data := some emptyCard }

/-- geminiService success-path processing: `JSON.parse(text)` directly, then
the cleaners.  `none` models a thrown error. -/
def geminiProcess (txt : List Char) : Option CardFields := do
  let v ← jsonParse txt
  let email ← geminiCleanEmail (jGetField v (cs "email"))
  let phone ← geminiCleanPhone (jGetField v (cs "phone"))
  let website ← geminiCleanWebsite (jGetField v (cs "website"))
  pure ⟨geminiCleanString (jGetField v (cs "name")), email, phone,
        geminiCleanString (jGetField v (cs "company")),
        geminiCleanString (jGetField v (cs "job_title")),
        geminiCleanString (jGetField v (cs "address")), website⟩

/-- geminiService `extractCardInfo`: one attempt; every thrown error —
including `Empty Gemini response` and JSON parse failures — lands in the
catch branch returning `success: false` with all-empty data. -/
def geminiExtract (o : ApiOutcome) : ExtractionResult :=
  match o with
  | .err _ msg => geminiErrorResult msg
  | .ok none => geminiErrorResult (cs "Empty Gemini response")
  | .ok (some txt) =>
    if txt.isEmpty then geminiErrorResult (cs "Empty Gemini response")
    else
      match geminiProcess txt with
      | some fields => { success := true, data := some fields }
      | none => geminiErrorResult parseErrMsg

/-! ### The two openai services (`services/openaiService.js` and the
single-attempt rewrite) -/

/-- `replace(/^```json\s*/i, '')`-style anchored case-insensitive strip of a
leading literal plus following whitespace (`litLower` given lower-case). -/
def stripFencePrefix (litLower : List Char) (s : List Char) : List Char :=
  if lowerChars (s.take litLower.length) = litLower then
    (s.drop litLower.length).dropWhile isWsChar
  else s

/-- `replace(/```\s*$/i, '')`: strip a trailing ``` ``` ``` followed only by
whitespace. -/
def stripFenceSuffix (s : List Char) : List Char :=
  let r1 := s.reverse.dropWhile isWsChar
  if (cs "```").isPrefixOf r1 then (r1.drop 3).reverse else s

/-- Both openai `parseCardJSON` helpers up to their catch: strip fences,
trim, prefer the brace span, `JSON.parse`, then `cleanField` each of the
seven keys.  `none` is the path into the catch. -/
def parseCardJSONCore (t : List Char) : Option CardFields := do
  let c1 := stripFencePrefix (cs "```json") t
  let c2 := stripFencePrefix (cs "```") c1
  let c3 := stripFenceSuffix c2
  let c4 := trimChars c3
  let c5 := match braceSpan c4 with
    | some span => span
    | none => c4
  let v ← jsonParse c5
  pure ⟨cleanField (jGetField v (cs "name")), cleanField (jGetField v (cs "email")),
        cleanField (jGetField v (cs "phone")), cleanField (jGetField v (cs "company")),
        cleanField (jGetField v (cs "job_title")), cleanField (jGetField v (cs "address")),
        cleanField (jGetField v (cs "website"))⟩

/-- `parseCardJSON`: the catch converts any parse failure into the all-empty
card. -/
def parseCardJSON (t : List Char) : CardFields :=
  (parseCardJSONCore t).getD emptyCard

/-- `services/openaiService.js` error classification (its catch branch). -/
def openaiV1ErrorResult (status : Option Nat) (msg : List Char) : ExtractionResult :=
  if status = some 429 || containsSeq (cs "rate_limit") msg || containsSeq (cs "quota") msg then
    { success := false, rateLimited := true,
      error := some (cs "OpenAI rate limit exceeded. Please wait a moment and try again.") }
  else if status = some 401 || containsSeq (cs "Incorrect API key") msg then
    { success := false,
      error := some (cs "OpenAI API key is invalid. Please check OPENAI_API_KEY in backend/.env. Get a key at https://platform.openai.com/api-keys") }
  else if status = some 402 || containsSeq (cs "insufficient_quota") msg then
    { success := false, rateLimited := true,
      error := some (cs "OpenAI account has insufficient credits. Please add credits at https://platform.openai.com/account/billing") }
  else
    { success := true, fallback := true, data := some emptyCard, error := some msg }

/-- `services/openaiService.js` `extractCardInfo`: pre-flight checks, then
one call; an empty `rawText` yields `success: false`. -/
def openaiV1Extract (keyPresent keyStartsSk fileExists : Bool)
    (o : ApiOutcome) : ExtractionResult :=
  if !keyPresent then
    { success := false,
      error := some (cs "OpenAI API key is not configured. Please set OPENAI_API_KEY in backend/.env") }
  else if !keyStartsSk then
    { success := false,
      error := some (cs "OpenAI API key appears invalid (should start with sk-). Get one at https://platform.openai.com/api-keys") }
  else if !fileExists then
    { success := false, error := some (cs "Image file not found at path") }
  else
    match o with
    | .err st msg => openaiV1ErrorResult st msg
    | .ok content =>
      let rawText := content.map trimChars
      if rawText = none ∨ rawText = some [] then
        { success := false, error := some (cs "Empty response from OpenAI") }
      else
        { success := true, data := some (parseCardJSON (rawText.getD [])),
          fallback := false, rateLimited := false }

/-- The single-attempt rewrite's error classification (no retry). -/
def openaiV2ErrorResult (status : Option Nat) (msg : List Char) : ExtractionResult :=
  if status = some 429 || containsSeq (cs "rate_limit") msg || containsSeq (cs "Rate limit") msg then
    { success := false, rateLimited := true,
      error := some (cs "OpenAI rate limit exceeded. Try again in a moment.") }
  else if status = some 401 || containsSeq (cs "Incorrect API key") msg then
    { success := false,
      error := some (cs "Invalid OpenAI API key. Check OPENAI_API_KEY in .env") }
  else if status = some 402 || containsSeq (cs "insufficient_quota") msg then
    { success := false, rateLimited := true,
      error := some (cs "OpenAI account out of credits. Add credits at https://platform.openai.com/account/billing") }
  else
    { success := true, fallback := true, data := some emptyCard, error := some msg }

/-- The single-attempt rewrite's `extractCardInfo`: pre-flight checks, one
call; an empty `rawText` yields the non-fatal fallback result. -/
def openaiV2Extract (keyPresent keyStartsSk fileExists : Bool)
    (o : ApiOutcome) : ExtractionResult :=
  if !keyPresent then
    { success := false,
      error := some (cs "OpenAI API key not configured. Set OPENAI_API_KEY in backend/.env") }
  else if !keyStartsSk then
    { success := false,
      error := some (cs "OpenAI API key invalid (must start with sk-). Check OPENAI_API_KEY in backend/.env") }
  else if !fileExists then
    { success := false, error := some (cs "Image file not found") }
  else
    match o with
    | .err st msg => openaiV2ErrorResult st msg
    | .ok content =>
      let rawText := content.map trimChars
      if rawText = none ∨ rawText = some [] then
        { success := true, fallback := true, data := some emptyCard,
          error := some (cs "Empty response from OpenAI") }
      else
        { success := true, data := some (parseCardJSON (rawText.getD [])),
          fallback := false, rateLimited := false }

/-- Modelled from the spec: the spec's description of website cleaning
("lower-case, trim; if non-empty and does not start with `http`, prefix
`https://` and strip a leading `www.`"), used to compare the two shipped
`cleanWebsite` implementations against the claimed behavior. -/
def specWebsiteClean (s : List Char) : List Char :=
  let w := lowerChars (trimChars s)
  if !w.isEmpty && !(cs "http").isPrefixOf w then
    cs "https://" ++ stripWwwPrefix w
  else w

/-- The spec's `ExtractionResult` invariant: a fallback result is a success
carrying the all-empty card, and a success always carries a data object
(whose seven fields are strings by construction). -/
def resultInvariant (r : ExtractionResult) : Prop :=
  (r.fallback = true → r.success = true ∧ r.data = some emptyCard) ∧
  (r.success = true → r.data.isSome = true)

instance (r : ExtractionResult) : Decidable (resultInvariant r) := by
  unfold resultInvariant
  infer_instance

/-! ## Concrete example inputs used by counterexamples and witnesses -/

/-- A campaign recipient with a given card id. -/
def exRecipient (n : Nat) : Recipient :=
  { id := n, email := cs "r@x.com", name := cs "R",
    personalizedSubject := cs "subj", personalizedBody := cs "body",
    customNote := [] }

/-- A three-recipient batch. -/
def exBatch : List Recipient := [exRecipient 1, exRecipient 2, exRecipient 3]

/-- A send collaborator that throws for recipient 2 and succeeds otherwise. -/
def exSend : Recipient → SendOutcome := fun r =>
  if r.id = 2 then .thrown (cs "boom") else .res true (some (cs "mid")) none

/-- A small `business_cards` table: cards 1 and 3 belong to user 10, card 2
to user 20. -/
def exDb : List DbCard :=
  [⟨1, 10, cs "A", cs "a@x.com", [], [], [], []⟩,
   ⟨2, 20, cs "B", cs "b@x.com", [], [], [], []⟩,
   ⟨3, 10, cs "C", cs "c@x.com", [], [], [], []⟩]

end BizCard

namespace BizCard

/-! ## String-replacement lemmas -/

/-- A pattern that does not occur in `s` is not a prefix of `s`. -/
theorem not_prefix_of_not_containsSeq {pat s : List Char}
    (h : containsSeq pat s = false) : pat.isPrefixOf s = false := by
  cases s with
  | nil =>
    cases pat with
    | nil => simp [containsSeq] at h
    | cons p ps => simp [List.isPrefixOf]
  | cons c rest =>
    simp only [containsSeq, Bool.or_eq_false_iff] at h
    exact h.1

theorem replaceAll_nil_right (pat rep : List Char) : replaceAll pat rep [] = [] := by
  cases pat <;> simp [replaceAll]

theorem replaceAll_nil_left (rep : List Char) (s : List Char) :
    replaceAll [] rep s = s := by
  cases s <;> simp [replaceAll]

theorem replaceAll_cons (p c : Char) (ps rep rest : List Char) :
    replaceAll (p :: ps) rep (c :: rest) =
      if p = c ∧ List.IsPrefix ps rest then
        rep ++ replaceAll (p :: ps) rep (rest.drop ps.length)
      else
        c :: replaceAll (p :: ps) rep rest := by
  simp [replaceAll]

/-- `replaceAll` is the identity when the pattern does not occur. -/
theorem replaceAll_of_not_contains (pat rep : List Char) :
    ∀ s : List Char, containsSeq pat s = false → replaceAll pat rep s = s := by
  intro s
  induction s with
  | nil => intro _; exact replaceAll_nil_right pat rep
  | cons c rest ih =>
    intro h
    have hpre := not_prefix_of_not_containsSeq h
    have hrest : containsSeq pat rest = false := by
      simp only [containsSeq, Bool.or_eq_false_iff] at h
      exact h.2
    cases pat with
    | nil => exact replaceAll_nil_left rep _
    | cons p ps =>
      have hnot : ¬ (p = c ∧ List.IsPrefix ps rest) := by
        intro ⟨hpc, hps⟩
        rw [List.isPrefixOf_cons₂] at hpre
        simp only [Bool.and_eq_false_iff] at hpre
        rcases hpre with h1 | h2
        · exact absurd hpc (by simpa using h1)
        · rw [← List.isPrefixOf_iff_prefix] at hps
          exact absurd hps (by simp [h2])
      rw [replaceAll_cons, if_neg hnot]
      exact congrArg (c :: ·) (ih hrest)

/-! ## Send-loop lemmas -/

/-- Each iteration of the send loop increments exactly one of the two
counters. -/
theorem sendLoop_sent_add_failed (send : Recipient → SendOutcome)
    (rs : List Recipient) :
    (sendLoop send rs).sentCount + (sendLoop send rs).failedCount = rs.length := by
  induction rs with
  | nil => rfl
  | cons r rest ih =>
    cases h : send r with
    | res ok mid err =>
      cases ok <;> simp only [sendLoop, h, List.length_cons, Bool.false_eq_true,
        if_true, if_false, reduceIte] <;> omega
    | thrown m =>
      simp only [sendLoop, h, List.length_cons]
      omega

/-- The loop writes one `sent_emails` row per recipient, keyed by the
recipient's card id, in input order. -/
theorem sendLoop_rows_map_cardId (send : Recipient → SendOutcome)
    (rs : List Recipient) :
    (sendLoop send rs).rows.map (·.cardId) = rs.map (·.id) := by
  induction rs with
  | nil => rfl
  | cons r rest ih =>
    cases h : send r <;> simp only [sendLoop, h, List.map_cons, ih]

/-- C9: rendering is the identity on templates containing no occurrence of a
recognized `\x7b\x7btoken\x7d\x7d` placeholder, for every card, custom note
and sender name; unknown placeholders are left verbatim. -/
theorem claim_C9_render_identity (s : List Char) (card : DbCard)
    (note sender : List Char)
    (h : ∀ t ∈ recognizedTokens, containsSeq t s = false) :
    replaceParameters s card note sender = s := by
  have h1 := h (tok "name") (by simp [recognizedTokens])
  have h2 := h (tok "first_name") (by simp [recognizedTokens])
  have h3 := h (tok "last_name") (by simp [recognizedTokens])
  have h4 := h (tok "email") (by simp [recognizedTokens])
  have h5 := h (tok "company") (by simp [recognizedTokens])
  have h6 := h (tok "job_title") (by simp [recognizedTokens])
  have h7 := h (tok "phone") (by simp [recognizedTokens])
  have h8 := h (tok "website") (by simp [recognizedTokens])
  have h9 := h (tok "custom_note") (by simp [recognizedTokens])
  have h10 := h (tok "sender_name") (by simp [recognizedTokens])
  unfold replaceParameters
  by_cases hs : s.isEmpty
  · rw [if_pos hs]
    exact (List.isEmpty_iff.mp hs).symm
  · rw [if_neg hs]
    simp only [replaceAll_of_not_contains _ _ _ h1,
      replaceAll_of_not_contains _ _ _ h2,
      replaceAll_of_not_contains _ _ _ h3,
      replaceAll_of_not_contains _ _ _ h4,
      replaceAll_of_not_contains _ _ _ h5,
      replaceAll_of_not_contains _ _ _ h6,
      replaceAll_of_not_contains _ _ _ h7,
      replaceAll_of_not_contains _ _ _ h8,
      replaceAll_of_not_contains _ _ _ h9,
      replaceAll_of_not_contains _ _ _ h10]

/-- Witness for C9 at a concrete template with an unrecognized placeholder. -/
theorem claim_C9_render_identity_witness :
    (∀ t ∈ recognizedTokens,
      containsSeq t (cs "Hi \x7b\x7bnickname\x7d\x7d, hello") = false) ∧
    replaceParameters (cs "Hi \x7b\x7bnickname\x7d\x7d, hello")
      ⟨1, 1, cs "Jane Doe", [], [], [], [], []⟩ (cs "note") (cs "Alex") =
      cs "Hi \x7b\x7bnickname\x7d\x7d, hello" :=
  ⟨by decide, claim_C9_render_identity _ _ _ _ (by decide)⟩

/-- C1 (counterexample): with three recipients where recipient 2's send
throws, `sendResults` has only 2 entries, not one per recipient — the catch
branch never pushes an entry — even though `sentCount = 2` and
`failedCount = 1`. -/
theorem claim_C1_counterexample :
    (sendLoop exSend exBatch).results.length = 2 ∧
    (sendLoop exSend exBatch).sentCount = 2 ∧
    (sendLoop exSend exBatch).failedCount = 1 ∧
    (sendLoop exSend exBatch).results.length ≠ exBatch.length := by
  decide

/-- C1 (amended): `sendResults` contains exactly one entry, in input order,
per recipient whose send call returned without throwing; a thrown send
contributes no entry.  `sentCount` still counts the individually successful
sends and every recipient increments exactly one of the two counters, so
`sentCount + failedCount` equals the number of recipients. -/
theorem claim_C1_amended (send : Recipient → SendOutcome) (rs : List Recipient) :
    (sendLoop send rs).results = rs.filterMap (fun r =>
        match send r with
        | .res ok mid err => some ⟨r.id, r.email, ok, mid, err⟩
        | .thrown _ => none) ∧
    (sendLoop send rs).sentCount =
      (rs.filter (fun r => isSuccessOutcome (send r))).length ∧
    (sendLoop send rs).sentCount + (sendLoop send rs).failedCount = rs.length := by
  refine ⟨?_, ?_, sendLoop_sent_add_failed send rs⟩
  · induction rs with
    | nil => rfl
    | cons r rest ih =>
      cases h : send r with
      | res ok mid err => simp only [sendLoop, h, List.filterMap_cons, ih]
      | thrown m => simp only [sendLoop, h, List.filterMap_cons, ih]
  · induction rs with
    | nil => rfl
    | cons r rest ih =>
      cases h : send r with
      | res ok mid err =>
        cases ok <;> simp [sendLoop, h, isSuccessOutcome, ih, Nat.add_comm]
      | thrown m =>
        simp [sendLoop, h, isSuccessOutcome, ih]

/-- C2: a thrown send error is caught — the loop still writes one
`sent_emails` row per recipient, and the recipient whose send threw gets a
row with status `failed` carrying the exception's message, while processing
continues past it. -/
theorem claim_C2_thrown_error_caught (send : Recipient → SendOutcome)
    (rs : List Recipient) :
    (sendLoop send rs).rows.length = rs.length ∧
    (∀ (i : Nat) (r : Recipient) (m : List Char),
      rs[i]? = some r → send r = .thrown m →
      (sendLoop send rs).rows[i]? = some
        { cardId := r.id, recipientEmail := r.email, recipientName := r.name,
          subject := r.personalizedSubject, status := cs "failed",
          customNote := r.customNote, errorMessage := some m }) := by
  constructor
  · have := sendLoop_rows_map_cardId send rs
    have h1 := congrArg List.length this
    simpa using h1
  · induction rs with
    | nil => intro i r m hr; simp at hr
    | cons q rest ih =>
      intro i r m hr hm
      cases i with
      | zero =>
        simp only [List.getElem?_cons_zero, Option.some_inj] at hr
        subst hr
        cases h : send q with
        | res ok mid err => rw [h] at hm; cases hm
        | thrown m' =>
          rw [h] at hm
          cases hm
          simp only [sendLoop, h, List.getElem?_cons_zero]
      | succ j =>
        simp only [List.getElem?_cons_succ] at hr
        have := ih j r m hr hm
        cases h : send q <;>
          simpa only [sendLoop, h, List.getElem?_cons_succ] using this

/-- Witness for C2: in the three-recipient example, recipient 2's thrown
send yields a failed `sent_emails` row carrying the message. -/
theorem claim_C2_thrown_error_caught_witness :
    (exBatch[1]? = some (exRecipient 2) ∧
      exSend (exRecipient 2) = .thrown (cs "boom")) ∧
    (sendLoop exSend exBatch).rows[1]? = some
      { cardId := 2, recipientEmail := cs "r@x.com", recipientName := cs "R",
        subject := cs "subj", status := cs "failed",
        customNote := [], errorMessage := some (cs "boom") } :=
  ⟨⟨by decide, by decide⟩,
    (claim_C2_thrown_error_caught exSend exBatch).2 1 (exRecipient 2)
      (cs "boom") (by decide) (by decide)⟩

/-- C3: for every campaign run to completion, the final `email_campaigns`
row satisfies `sent_count + failed_count = total_recipients`, its status is
`completed` regardless of individual failures, and the status history never
leaves a terminal status for a different one. -/
theorem claim_C3_completion_invariant (cards : List DbCard)
    (subject body sender : List Char) (notes : Nat → List Char)
    (send : Recipient → SendOutcome) :
    (∃ fin, (campaignStates cards subject body sender notes send).getLast? = some fin ∧
      fin.sentCount + fin.failedCount = fin.totalRecipients ∧
      fin.status = .completed) ∧
    noTerminalRevert
      ((campaignStates cards subject body sender notes send).map (·.status)) = true := by
  constructor
  · refine ⟨_, rfl, ?_, rfl⟩
    show (sendLoop send _).sentCount + (sendLoop send _).failedCount = cards.length
    rw [sendLoop_sent_add_failed]
    exact List.length_map _ _
  · rfl

/-- C7 (counterexample): the 1000 ms pacing sleep sits inside the `try`
block, so when recipient 2's send throws, that iteration does not sleep —
pacing is skipped on a thrown error. -/
theorem claim_C7_counterexample :
    (sendLoop exSend exBatch).sleeps = [true, false, true] ∧
    (sendLoop exSend exBatch).sleeps ≠ List.replicate exBatch.length true := by
  decide

/-- C7 (amended): each iteration sleeps the fixed pacing interval exactly
when the send collaborator returned without throwing — including when the
returned result marks the send as failed; a thrown send skips the sleep. -/
theorem claim_C7_amended (send : Recipient → SendOutcome) (rs : List Recipient) :
    (sendLoop send rs).sleeps = rs.map (fun r => !isThrownOutcome (send r)) := by
  induction rs with
  | nil => rfl
  | cons r rest ih =>
    cases h : send r <;>
      simp only [sendLoop, h, List.map_cons, isThrownOutcome, Bool.not_false,
        Bool.not_true, ih]

/-- C10: the recipients actually processed are exactly the cards returned by
the ownership-filtered lookup: the route answers not-found precisely when no
requested card is owned by the requester, `totalRecipients` equals the
number of found cards, the per-recipient rows are keyed by the found cards'
ids in order, and a requested id that was not found produces no row. -/
theorem claim_C10_lookup_scope (db : List DbCard) (uid : Nat) (ids : List Nat)
    (subject body sender : List Char) (notes : Nat → List Char)
    (send : Recipient → SendOutcome) :
    (campaignRoute db uid ids subject body sender notes send = none ↔
      lookupCards db uid ids = []) ∧
    (∀ resp rows,
      campaignRoute db uid ids subject body sender notes send = some (resp, rows) →
      resp.totalRecipients = (lookupCards db uid ids).length ∧
      rows.map (·.cardId) = (lookupCards db uid ids).map (·.id) ∧
      (∀ i ∈ ids, i ∉ (lookupCards db uid ids).map (·.id) →
        i ∉ rows.map (·.cardId))) := by
  constructor
  · unfold campaignRoute
    by_cases he : (lookupCards db uid ids).isEmpty
    · simp [he, List.isEmpty_iff.mp he]
    · simp only [he, Bool.false_eq_true, if_false]
      constructor
      · intro h; cases h
      · intro h; exact absurd (List.isEmpty_iff.mpr h) (by simp [he])
  · intro resp rows h
    unfold campaignRoute at h
    by_cases he : (lookupCards db uid ids).isEmpty
    · rw [if_pos he] at h; cases h
    · rw [if_neg he] at h
      have hresp := congrArg (fun p => (Prod.fst <$> p : Option CampaignResponse)) h
      have hrows := congrArg (fun p => (Prod.snd <$> p : Option (List SentEmailRow))) h
      simp only [Option.map_some, Option.some_inj] at hresp hrows
      have hmap : rows.map (·.cardId) = (lookupCards db uid ids).map (·.id) := by
        rw [← hrows, sendLoop_rows_map_cardId, List.map_map]
        rfl
      refine ⟨by rw [← hresp], hmap, ?_⟩
      intro i _ hnot
      rw [hmap]
      exact hnot

/-- Witness for C10: user 10 requests cards 1 (owned), 2 (another user's)
and 99 (nonexistent); only card 1 is processed, `totalRecipients = 1`, and
neither 2 nor 99 yields a row. -/
theorem claim_C10_lookup_scope_witness :
    (campaignRoute exDb 10 [1, 2, 99] [] [] [] (fun _ => [])
        (fun _ => .res true none none) =
      some ({ sentCount := 1, failedCount := 0, totalRecipients := 1,
              results := [⟨1, cs "a@x.com", true, none, none⟩] },
            [⟨1, cs "a@x.com", cs "A", [], cs "sent", [], none⟩])) ∧
    (1 : Nat) = (lookupCards exDb 10 [1, 2, 99]).length ∧
    [⟨1, cs "a@x.com", cs "A", [], cs "sent", [], none⟩].map
        (SentEmailRow.cardId) = (lookupCards exDb 10 [1, 2, 99]).map (·.id) ∧
    (∀ i ∈ [1, 2, 99], i ∉ (lookupCards exDb 10 [1, 2, 99]).map (·.id) →
      i ∉ [⟨1, cs "a@x.com", cs "A", [], cs "sent", [], none⟩].map
        (SentEmailRow.cardId)) :=
  ⟨by decide,
    (claim_C10_lookup_scope exDb 10 [1, 2, 99] [] [] [] (fun _ => [])
      (fun _ => .res true none none)).2
      { sentCount := 1, failedCount := 0, totalRecipients := 1,
        results := [⟨1, cs "a@x.com", true, none, none⟩] }
      [⟨1, cs "a@x.com", cs "A", [], cs "sent", [], none⟩] (by decide)⟩

/-! ## Extraction-result lemmas -/

/-- Any result the mistral retry loop returns early satisfies the
`ExtractionResult` invariant. -/
theorem mistralStep_invariant (a : MistralAttempt) (l : Bool)
    (r : ExtractionResult) (h : mistralAttemptStep a l = some r) :
    resultInvariant r := by
  cases a with
  | content t =>
    cases t with
    | none => simp [mistralAttemptStep] at h
    | some txt =>
      cases hp : mistralProcessText txt with
      | none => simp [mistralAttemptStep, hp] at h
      | some fields =>
        simp only [mistralAttemptStep, hp, Option.some_inj] at h
        subst h
        exact ⟨(fun hf => nomatch hf), (fun _ => rfl)⟩
  | http429 =>
    cases l with
    | false => simp [mistralAttemptStep] at h
    | true =>
      simp [mistralAttemptStep] at h
      subst h
      decide
  | http401 =>
    simp only [mistralAttemptStep, Option.some_inj] at h
    subst h
    decide
  | netError => simp [mistralAttemptStep] at h

/-- The mistral retry loop always yields an invariant-satisfying result. -/
theorem mistralLoop_invariant (attempts : List MistralAttempt) :
    resultInvariant (mistralLoop attempts) := by
  induction attempts with
  | nil => decide
  | cons a rest ih =>
    simp only [mistralLoop]
    cases hs : mistralAttemptStep a rest.isEmpty with
    | none => exact ih
    | some r => exact mistralStep_invariant a rest.isEmpty r hs

/-- The v1 openai error classifier only produces invariant results. -/
theorem openaiV1Error_invariant (st : Option Nat) (msg : List Char) :
    resultInvariant (openaiV1ErrorResult st msg) := by
  unfold openaiV1ErrorResult resultInvariant
  split_ifs <;> simp

/-- The v2 openai error classifier only produces invariant results. -/
theorem openaiV2Error_invariant (st : Option Nat) (msg : List Char) :
    resultInvariant (openaiV2ErrorResult st msg) := by
  unfold openaiV2ErrorResult resultInvariant
  split_ifs <;> simp

/-- C5: every result produced by any of the four extraction pipelines
satisfies the invariant: a `fallback: true` result is a success whose data
is the all-empty card, and a `success: true` result always carries a data
object with the seven string fields. -/
theorem claim_C5_result_invariant :
    (∀ (key : Bool) (attempts : List MistralAttempt),
      resultInvariant (mistralExtract key attempts)) ∧
    (∀ o : ApiOutcome, resultInvariant (geminiExtract o)) ∧
    (∀ (kp ks fe : Bool) (o : ApiOutcome),
      resultInvariant (openaiV1Extract kp ks fe o)) ∧
    (∀ (kp ks fe : Bool) (o : ApiOutcome),
      resultInvariant (openaiV2Extract kp ks fe o)) := by
  refine ⟨?_, ?_, ?_, ?_⟩
  · intro key attempts
    cases key with
    | false => exact ⟨fun _ => ⟨rfl, rfl⟩, fun _ => rfl⟩
    | true => exact mistralLoop_invariant attempts
  · intro o
    cases o with
    | err st msg => exact ⟨(fun hf => nomatch hf), (fun hs => nomatch hs)⟩
    | ok t =>
      cases t with
      | none => exact ⟨(fun hf => nomatch hf), (fun hs => nomatch hs)⟩
      | some txt =>
        simp only [geminiExtract]
        by_cases he : txt.isEmpty
        · simp only [he, if_true]
          exact ⟨(fun hf => nomatch hf), (fun hs => nomatch hs)⟩
        · simp only [he, if_false]
          cases hp : geminiProcess txt with
          | none => exact ⟨(fun hf => nomatch hf), (fun hs => nomatch hs)⟩
          | some fields => exact ⟨(fun hf => nomatch hf), (fun _ => rfl)⟩
  · intro kp ks fe o
    cases kp with
    | false => exact ⟨(fun hf => nomatch hf), (fun hs => nomatch hs)⟩
    | true =>
    cases ks with
    | false => exact ⟨(fun hf => nomatch hf), (fun hs => nomatch hs)⟩
    | true =>
    cases fe with
    | false => exact ⟨(fun hf => nomatch hf), (fun hs => nomatch hs)⟩
    | true =>
    cases o with
    | err st msg => exact openaiV1Error_invariant st msg
    | ok content =>
      simp only [openaiV1Extract, Bool.not_true, Bool.false_eq_true, if_false]
      by_cases he : (content.map trimChars = none ∨ content.map trimChars = some [])
      · simp only [if_pos he]
        exact ⟨(fun hf => nomatch hf), (fun hs => nomatch hs)⟩
      · simp only [if_neg he]
        exact ⟨(fun hf => nomatch hf), (fun _ => rfl)⟩
  · intro kp ks fe o
    cases kp with
    | false => exact ⟨(fun hf => nomatch hf), (fun hs => nomatch hs)⟩
    | true =>
    cases ks with
    | false => exact ⟨(fun hf => nomatch hf), (fun hs => nomatch hs)⟩
    | true =>
    cases fe with
    | false => exact ⟨(fun hf => nomatch hf), (fun hs => nomatch hs)⟩
    | true =>
    cases o with
    | err st msg => exact openaiV2Error_invariant st msg
    | ok content =>
      simp only [openaiV2Extract, Bool.not_true, Bool.false_eq_true, if_false]
      by_cases he : (content.map trimChars = none ∨ content.map trimChars = some [])
      · simp only [if_pos he]
        exact ⟨fun _ => ⟨rfl, rfl⟩, fun _ => rfl⟩
      · simp only [if_neg he]
        exact ⟨(fun hf => nomatch hf), (fun _ => rfl)⟩

/-- Witness for C5 at the mistral fallback result. -/
theorem claim_C5_result_invariant_witness :
    (mistralExtract false []).fallback = true ∧
    (mistralExtract false []).success = true ∧
    (mistralExtract false []).data = some emptyCard :=
  ⟨by decide, (claim_C5_result_invariant.1 false []).1 (by decide)⟩

/-- C4 (counterexample): on a provider text with no JSON object, gemini
returns `success: false` (not a fallback success), and the v1 openai
service returns `success: true` but `fallback: false` — the claimed
`success == true ∧ fallback == true` shape does not hold for either. -/
theorem claim_C4_counterexample :
    (geminiExtract (.ok (some (cs "no json at all")))).success = false ∧
    (geminiExtract (.ok (some (cs "no json at all")))).fallback = false ∧
    (openaiV1Extract true true true (.ok (some (cs "no json at all")))).success = true ∧
    (openaiV1Extract true true true (.ok (some (cs "no json at all")))).fallback = false := by
  decide

/-- C4 (amended): an unparseable provider text is non-fatal everywhere, but
the result shape is provider-specific: mistral (after its three attempts
all fail to parse) returns the `success ∧ fallback` all-empty result; the
two openai single-attempt services return `success: true` with all-empty
data but `fallback: false`; gemini returns `success: false` with all-empty
data. -/
theorem claim_C4_amended :
    (∀ t, mistralProcessText t = none →
      mistralExtract true [.content (some t), .content (some t), .content (some t)] =
        mistralFallbackResult) ∧
    (∀ t, trimChars t ≠ [] → parseCardJSONCore (trimChars t) = none →
      openaiV1Extract true true true (.ok (some t)) =
        { success := true, data := some emptyCard, fallback := false,
          rateLimited := false }) ∧
    (∀ t, trimChars t ≠ [] → parseCardJSONCore (trimChars t) = none →
      openaiV2Extract true true true (.ok (some t)) =
        { success := true, data := some emptyCard, fallback := false,
          rateLimited := false }) ∧
    (∀ t, t.isEmpty = false → geminiProcess t = none →
      geminiExtract (.ok (some t)) = geminiErrorResult parseErrMsg) := by
  refine ⟨?_, ?_, ?_, ?_⟩
  · intro t h
    simp [mistralExtract, mistralLoop, mistralAttemptStep, h]
  · intro t hne hc
    simp [openaiV1Extract, hne, parseCardJSON, hc]
  · intro t hne hc
    simp [openaiV2Extract, hne, parseCardJSON, hc]
  · intro t h1 h2
    simp [geminiExtract, h1, h2]

/-- Witness for C4 (amended) at the concrete malformed text `not json`. -/
theorem claim_C4_amended_witness :
    (mistralProcessText (cs "not json") = none ∧
      mistralExtract true [.content (some (cs "not json")),
        .content (some (cs "not json")), .content (some (cs "not json"))] =
        mistralFallbackResult) ∧
    (geminiProcess (cs "not json") = none ∧
      geminiExtract (.ok (some (cs "not json"))) = geminiErrorResult parseErrMsg) :=
  ⟨⟨by decide, claim_C4_amended.1 _ (by decide)⟩,
   ⟨by decide, claim_C4_amended.2.2.2 _ (by decide) (by decide)⟩⟩

/-- C6 (counterexample): the v1 openai single-attempt service answers an
empty provider text with `success: false` and an error — not the claimed
non-fatal fallback. -/
theorem claim_C6_counterexample :
    (openaiV1Extract true true true (.ok none)).success = false ∧
    (openaiV1Extract true true true (.ok none)).fallback = false ∧
    (openaiV1Extract true true true (.ok none)).error =
      some (cs "Empty response from OpenAI") := by
  decide

/-- C6 (amended): the two shipped single-attempt services disagree on a
missing/empty provider text: the no-retries rewrite returns the non-fatal
fallback (`success ∧ fallback`, all-empty data), while
`services/openaiService.js` returns `success: false` with an error. -/
theorem claim_C6_amended :
    openaiV2Extract true true true (.ok none) =
      { success := true, fallback := true, data := some emptyCard,
        error := some (cs "Empty response from OpenAI") } ∧
    openaiV2Extract true true true (.ok (some (cs "   "))) =
      { success := true, fallback := true, data := some emptyCard,
        error := some (cs "Empty response from OpenAI") } ∧
    openaiV1Extract true true true (.ok none) =
      { success := false, error := some (cs "Empty response from OpenAI") } ∧
    openaiV1Extract true true true (.ok (some (cs "   "))) =
      { success := false, error := some (cs "Empty response from OpenAI") } := by
  decide

/-- C8 (counterexample): gemini's `cleanWebsite` neither lower-cases nor
trims: `EXAMPLE.COM` becomes `https://EXAMPLE.COM`, not the
`https://example.com` the claim's lower-casing requires. -/
theorem claim_C8_counterexample :
    geminiCleanWebsite (some (.jstr (cs "EXAMPLE.COM"))) =
      some (cs "https://EXAMPLE.COM") ∧
    some (cs "https://EXAMPLE.COM") ≠ some (cs "https://example.com") := by
  decide

/-- C8 (amended): mistral's `cleanWebsite` implements the claimed cleaning
(lower-case, trim, then `https://` prefixing with `www.` stripping) for
every string input outside its sentinel set (`''`, `null`, `undefined`,
`N/A`, which clean to empty); gemini's variant satisfies the three quoted
examples but performs no lower-casing or trimming. -/
theorem claim_C8_amended :
    (∀ s : List Char, s ≠ [] → s ≠ cs "null" → s ≠ cs "undefined" → s ≠ cs "N/A" →
      mistralCleanWebsite (some (.jstr s)) = some (specWebsiteClean s)) ∧
    mistralCleanWebsite (some (.jstr (cs "example.com"))) =
      some (cs "https://example.com") ∧
    mistralCleanWebsite (some (.jstr (cs "www.example.com"))) =
      some (cs "https://example.com") ∧
    mistralCleanWebsite (some (.jstr (cs "https://example.com"))) =
      some (cs "https://example.com") ∧
    geminiCleanWebsite (some (.jstr (cs "example.com"))) =
      some (cs "https://example.com") ∧
    geminiCleanWebsite (some (.jstr (cs "www.example.com"))) =
      some (cs "https://example.com") ∧
    geminiCleanWebsite (some (.jstr (cs "https://example.com"))) =
      some (cs "https://example.com") := by
  refine ⟨?_, by decide, by decide, by decide, by decide, by decide, by decide⟩
  intro s h0 h1 h2 h3
  have hfe : s.isEmpty = false := by
    cases s with
    | nil => exact absurd rfl h0
    | cons c r => rfl
  simp only [mistralCleanWebsite, specWebsiteClean, jsFalsy, hfe,
    Bool.false_eq_true, if_false, h1, h2, h3, or_self, or_false, false_or]
  split_ifs <;> rfl

/-- Witness for C8 (amended): mistral's cleaning of ` Example.COM ` both
trims and lower-cases before prefixing. -/
theorem claim_C8_amended_witness :
    mistralCleanWebsite (some (.jstr (cs " Example.COM "))) =
      some (specWebsiteClean (cs " Example.COM ")) ∧
    specWebsiteClean (cs " Example.COM ") = cs "https://example.com" :=
  ⟨claim_C8_amended.1 _ (by decide) (by decide) (by decide) (by decide),
    by decide⟩

end BizCard
